import Mathlib

/-!
Shallow embedding of the claim-relevant parts of the smart-media-organizer
repository (Python), and proofs about it.

Modelling conventions:
- Python floats (times, rates, token counts, delays) are modelled by `ℚ`,
  so the arithmetic identities of the code are exact.
- Wall-clock time is passed explicitly (`now : ℚ`) to every operation that
  reads `time.time()` in the source.
- Exceptions are modelled by explicit result values (`Except` / sum-like
  inductives); an uncaught Python exception is an error result.
- Paths are strings; the in-memory filesystem is a partial map from path
  to file content (`List Nat` of bytes).
-/

namespace SMO

/-! ## Retry framework (utils/retry.py)

`ExponentialBackoffStrategy` / `LinearBackoffStrategy` / `FixedDelayStrategy`
all share the same `should_retry` logic:

    if attempt >= self.max_attempts: return False
    return isinstance(exception, self.retryable_exceptions)

Error kinds are modelled as `Nat` codes; the `isinstance` whitelist check is
an abstract boolean predicate `retryable` on error kinds.  Delay computation
is irrelevant to the claims (it only feeds `asyncio.sleep`) and is omitted.
-/

structure RetryStrategyM where
  max_attempts : Nat
  retryable : Nat → Bool

/-- `ExponentialBackoffStrategy.should_retry` (retry.py lines 87-92; the
linear and fixed strategies have the identical body). -/
def should_retry (s : RetryStrategyM) (attempt : Nat) (e : Nat) : Bool :=
  if s.max_attempts ≤ attempt then false else s.retryable e

/-- `RetryError(attempts, last_exception)` (retry.py lines 19-27). -/
structure RetryErrorM where
  attempts : Nat
  last_exception : Nat
deriving DecidableEq

/-- The driving loop of `retry_async` (retry.py lines 243-264) together with
the state updates of `RetryContext.should_retry` (lines 187-208).  The wrapped
operation is modelled as a function from the 0-based attempt number to its
outcome on that invocation.  Returns the final outcome together with the
total number of invocations of the operation. -/
def retryGo (s : RetryStrategyM) (op : Nat → Except Nat α) (attempt : Nat) :
    Except RetryErrorM α × Nat :=
  match op attempt with
  | .ok a => (.ok a, 1)
  | .error e =>
    if h : should_retry s attempt e = true then
      let r := retryGo s op (attempt + 1)
      (r.1, r.2 + 1)
    else
      (.error ⟨attempt, e⟩, 1)
termination_by s.max_attempts - attempt
decreasing_by
  unfold should_retry at h
  split at h
  · exact absurd h (by simp)
  · omega

/-- `retry_async(func, strategy)` (retry.py lines 218-264): run the loop with
a fresh `RetryContext` (attempt counter 0). -/
def retry_async (s : RetryStrategyM) (op : Nat → Except Nat α) :
    Except RetryErrorM α × Nat :=
  retryGo s op 0

/-! ## Token bucket rate limiter (utils/rate_limiter.py, lines 28-137) -/

structure TokenBucketRL where
  capacity : ℚ
  refill_rate : ℚ
  tokens : ℚ
  last_refill : ℚ

/-- `TokenBucketRateLimiter.__init__` (lines 35-53): `tokens` is
`initial_tokens if initial_tokens is not None else capacity`, with no
clamping of any kind. -/
def mkTokenBucket (capacity refill_rate : ℚ) (initial_tokens : Option ℚ)
    (now : ℚ) : TokenBucketRL :=
  { capacity := capacity
    refill_rate := refill_rate
    tokens := initial_tokens.getD capacity
    last_refill := now }

/-- `TokenBucketRateLimiter._refill` (lines 118-126): only updates when
`elapsed > 0`. -/
def tbRefill (b : TokenBucketRL) (now : ℚ) : TokenBucketRL :=
  let elapsed := now - b.last_refill
  if 0 < elapsed then
    { b with
      tokens := min b.capacity (b.tokens + elapsed * b.refill_rate)
      last_refill := now }
  else b

inductive TBResult where
  | granted
  | rejected (retry_after : ℚ)
deriving DecidableEq

/-- `TokenBucketRateLimiter.acquire` (lines 62-94): refill, then either deduct
`n` tokens or raise `RateLimitExceeded` with
`retry_after = (n - tokens) / refill_rate`, leaving the token count alone. -/
def tbAcquire (b : TokenBucketRL) (n : ℚ) (now : ℚ) : TBResult × TokenBucketRL :=
  let b1 := tbRefill b now
  if n ≤ b1.tokens then
    (.granted, { b1 with tokens := b1.tokens - n })
  else
    (.rejected ((n - b1.tokens) / b1.refill_rate), b1)

/-- `TokenBucketRateLimiter.reset` (lines 133-137). -/
def tbReset (b : TokenBucketRL) (now : ℚ) : TokenBucketRL :=
  { b with tokens := b.capacity, last_refill := now }

/-! ## Adaptive rate limiter (utils/rate_limiter.py, lines 226-327) -/

structure AdaptiveRL where
  current_rate : ℚ
  min_rate : ℚ
  max_rate : ℚ
  increase_factor : ℚ
  decrease_factor : ℚ
  last_request : ℚ
  consecutive_successes : Nat

/-- `AdaptiveRateLimiter.__init__` (lines 233-258): `current_rate` is set to
`initial_rate` with no clamping; defaults are `min_rate = 0.1`,
`max_rate = 100.0`, `increase_factor = 1.1`, `decrease_factor = 0.5`. -/
def mkAdaptive (initial_rate min_rate max_rate increase_factor decrease_factor : ℚ) :
    AdaptiveRL :=
  { current_rate := initial_rate
    min_rate := min_rate
    max_rate := max_rate
    increase_factor := increase_factor
    decrease_factor := decrease_factor
    last_request := 0
    consecutive_successes := 0 }

/-- `AdaptiveRateLimiter.acquire` (lines 267-285): sleeps to enforce spacing
`1 / current_rate` and records the grant time; the rate and streak fields are
untouched. -/
def adaptiveAcquire (a : AdaptiveRL) (now : ℚ) : AdaptiveRL :=
  let required_delay := 1 / a.current_rate
  let time_since_last := now - a.last_request
  let remaining_delay := required_delay - time_since_last
  let finish := if 0 < remaining_delay then now + remaining_delay else now
  { a with last_request := finish }

/-- `AdaptiveRateLimiter.report_success` (lines 287-307). -/
def report_success (a : AdaptiveRL) : AdaptiveRL :=
  let a1 := { a with consecutive_successes := a.consecutive_successes + 1 }
  if 10 ≤ a1.consecutive_successes then
    { a1 with
      current_rate := min a1.max_rate (a1.current_rate * a1.increase_factor)
      consecutive_successes := 0 }
  else a1

/-- `AdaptiveRateLimiter.report_rate_limited` (lines 309-322). -/
def report_rate_limited (a : AdaptiveRL) : AdaptiveRL :=
  { a with
    current_rate := max a.min_rate (a.current_rate * a.decrease_factor)
    consecutive_successes := 0 }

/-- Iterated `report_success` calls. -/
def report_success_iter (a : AdaptiveRL) : Nat → AdaptiveRL
  | 0 => a
  | k + 1 => report_success (report_success_iter a k)

/-! ## Operation sequences and invariants of the rate limiters (claim C4) -/

/-- An operation on a token bucket limiter: the public `acquire` (which
internally refills first), the internal `_refill`, or `reset`. -/
inductive TBOp where
  | acquire (n now : ℚ)
  | refill (now : ℚ)
  | reset (now : ℚ)

def tbApply (b : TokenBucketRL) : TBOp → TokenBucketRL
  | .acquire n now => (tbAcquire b n now).2
  | .refill now => tbRefill b now
  | .reset now => tbReset b now

/-- A requested token amount is nonnegative (true of every call in the
repository: `acquire()` / `acquire(1)`). -/
def TBOp.nonneg : TBOp → Prop
  | .acquire n _ => 0 ≤ n
  | .refill _ => True
  | .reset _ => True

/-- The claimed token bucket invariant. -/
def tbInv (b : TokenBucketRL) : Prop :=
  0 ≤ b.tokens ∧ b.tokens ≤ b.capacity

/-- The claimed adaptive-limiter invariant. -/
def adInv (a : AdaptiveRL) : Prop :=
  a.min_rate ≤ a.current_rate ∧ a.current_rate ≤ a.max_rate

/-- An operation on an adaptive limiter. -/
inductive AdOp where
  | acquire (now : ℚ)
  | success
  | limited

def adApply (a : AdaptiveRL) : AdOp → AdaptiveRL
  | .acquire now => adaptiveAcquire a now
  | .success => report_success a
  | .limited => report_rate_limited a

/-- Config facts of a bucket preserved by every operation, needed for the
induction: nonnegative capacity and refill rate. -/
def tbConfigOk (b : TokenBucketRL) : Prop :=
  0 ≤ b.capacity ∧ 0 ≤ b.refill_rate

/-! ## Sliding window rate limiter (utils/rate_limiter.py, lines 140-223)

The `deque` of grant timestamps is a list with the oldest entry at the
head; appends go to the back, evictions pop the front. -/

structure SlidingWindowRL where
  max_requests : Nat
  window_seconds : ℚ
  requests : List ℚ

/-- `SlidingWindowRateLimiter._cleanup_old_requests` (lines 209-213): pop
front entries while the head is `≤ now - window_seconds`. -/
def cleanup_old_requests (w now : ℚ) : List ℚ → List ℚ
  | [] => []
  | t :: ts => if t ≤ now - w then cleanup_old_requests w now ts else t :: ts

inductive SWResult where
  | granted
  | rejected (retry_after : ℚ)
  | indexError
deriving DecidableEq

/-- `SlidingWindowRateLimiter.acquire` (lines 165-194): cleanup, then either
reject with `retry_after = oldest + window - now` or record `now` at the
back and grant.  (With `max_requests = 0` the Python indexes an empty deque
and crashes; that corner is the `indexError` result.) -/
def swAcquire (s : SlidingWindowRL) (now : ℚ) : SWResult × SlidingWindowRL :=
  let reqs := cleanup_old_requests s.window_seconds now s.requests
  if s.max_requests ≤ reqs.length then
    match reqs with
    | oldest :: _ =>
      (.rejected (oldest + s.window_seconds - now), { s with requests := reqs })
    | [] => (.indexError, { s with requests := reqs })
  else
    (.granted, { s with requests := reqs ++ [now] })

/-- `k` immediately consecutive `acquire` calls at the same instant; the
boolean is true when all of them were granted. -/
def swBurst (s : SlidingWindowRL) (now : ℚ) : Nat → Bool × SlidingWindowRL
  | 0 => (true, s)
  | k + 1 =>
    match swAcquire s now with
    | (.granted, s1) => swBurst s1 now k
    | (_, s1) => (false, s1)

/-! ## Atomic file operations (utils/file_ops.py)

The filesystem is a partial map from path (string) to content (byte list).
`Path.with_suffix(path.suffix + X)` appends `X` to an ordinary file name,
so the staging path is `destination ++ ".tmp"` and the backup path is
`destination ++ ".backup"`.  Hashing (`calculate_file_hash`) is an
abstract function from content to a digest.  The behaviour of the chunked
stream copy is environment-dependent, modelled by a `CopyFault`:
`clean` (the copy faithfully writes the source bytes), `corrupt w` (the
copy completes but the staging file ends up with bytes `w`, e.g. because
the source changed under it), `crashMid w` (an I/O error interrupts the
copy after writing `w`). -/

def FS : Type := String → Option (List Nat)

def fsSet (fs : FS) (p : String) (v : Option (List Nat)) : FS :=
  fun q => if q = p then v else fs q

/-- `os.rename(src, dst)`: `dst` receives the content of `src`, and `src`
disappears. -/
def fsRename (fs : FS) (src dst : String) : FS :=
  fun q => if q = dst then fs src else if q = src then none else fs q

inductive FileErr where
  | fileNotFound
  | integrityError
  | operationError (cause : Option FileErr)

inductive CopyFault where
  | clean
  | corrupt (written : List Nat)
  | crashMid (written : List Nat)

def tmpPath (destination : String) : String := destination ++ ".tmp"

def backupPath (destination : String) : String := destination ++ ".backup"

/-- `copy_file_atomic` (file_ops.py lines 134-210).  Returns the raised
error (`none` = success) and the resulting filesystem.  Faithful details:
the stream copy writes to the staging path; on a hash mismatch the staging
file is removed and `FileIntegrityError` is raised — but that raise sits
inside the function's blanket `except Exception` handler, which re-raises
`FileOperationError(...) from e`; likewise any copy-step exception yields a
`FileOperationError` after staging cleanup.  Only success performs the
`os.rename` of staging onto the destination. -/
def copy_file_atomic (hash : List Nat → Nat) (fs : FS)
    (source destination : String) (verify_integrity : Bool)
    (fault : CopyFault) : Option FileErr × FS :=
  match fs source with
  | none => (some .fileNotFound, fs)
  | some content =>
    match fault with
    | .crashMid _ =>
      -- exception during the stream copy; the handler removes the staging
      -- file (whatever was written) and wraps the cause
      (some (.operationError none), fsSet fs (tmpPath destination) none)
    | .clean =>
      copyVerifyRename hash fs source destination verify_integrity content content
    | .corrupt w =>
      copyVerifyRename hash fs source destination verify_integrity content w
where
  /-- Steps 4-6 of the copy: staging holds `written`; verify then rename. -/
  copyVerifyRename (hash : List Nat → Nat) (fs : FS)
      (source destination : String) (verify_integrity : Bool)
      (content written : List Nat) : Option FileErr × FS :=
    let fs1 := fsSet fs (tmpPath destination) (some written)
    if verify_integrity ∧ hash content ≠ hash written then
      -- `os.remove(temp)` then `raise FileIntegrityError`, which the
      -- blanket handler converts into a FileOperationError wrapping it
      (some (.operationError (some .integrityError)),
        fsSet fs1 (tmpPath destination) none)
    else
      (none, fsRename fs1 (tmpPath destination) destination)

/-- `move_file_atomic` (file_ops.py lines 213-270).  `renameRaises` models
whether the direct `os.rename` raises `OSError` (the cross-filesystem
case); `backupFault` and `fallbackFault` are the environments of the two
possible internal `copy_file_atomic` calls. -/
def move_file_atomic (hash : List Nat → Nat) (fs : FS)
    (source destination : String) (verify_integrity create_backup : Bool)
    (renameRaises : Bool) (backupFault fallbackFault : CopyFault) :
    Option FileErr × FS :=
  match fs source with
  | none => (some .fileNotFound, fs)
  | some _ =>
    let afterBackup : Option FileErr × FS :=
      if create_backup ∧ (fs destination).isSome then
        copy_file_atomic hash fs destination (backupPath destination) false
          backupFault
      else (none, fs)
    match afterBackup with
    | (some e, fs1) => (some e, fs1)
    | (none, fs1) =>
      if renameRaises then
        match copy_file_atomic hash fs1 source destination verify_integrity
            fallbackFault with
        | (none, fs2) => (none, fsSet fs2 source none)
        | (some e, fs2) => (some e, fs2)
      else
        (none, fsRename fs1 source destination)

def fs0 : FS := fun p => if p = "src.mkv" then some [1, 2, 3] else none

/-! ## Classifier and scanner (utils/file_ops.py, core/scanner.py,
models/config.py)

Python string operations are modelled over `List Char` (lower-casing via
`Char.toLower`), since only ASCII names and patterns occur in the claims.
A discovered file is its base name plus the facts the scanner reads about
it: byte size and the outcome of magic-number sniffing on its first 2048
bytes.  Directory structure is irrelevant to every per-file decision, so a
directory tree is the list of its discovered files. -/

def lowerList (cs : List Char) : List Char := cs.map Char.toLower

/-- `str.rfind('.')`: index of the last dot, if any. -/
def rfindDot (cs : List Char) : Option Nat :=
  (cs.enum.filterMap (fun p => if p.2 = '.' then some p.1 else none)).getLast?

/-- `pathlib.PurePath.suffix` on a base name: `name[i:]` for the last dot
index `i` when `0 < i < len(name) - 1`, else the empty string. -/
def pathSuffix (name : String) : List Char :=
  let cs := name.toList
  match rfindDot cs with
  | some i => if 0 < i ∧ i < cs.length - 1 then cs.drop i else []
  | none => []

/-- Is `p` a contiguous substring of `l` (Python's `in` on str)? -/
def subOf (p : List Char) : List Char → Bool
  | [] => p.isEmpty
  | c :: t => p.isPrefixOf (c :: t) || subOf p t

/-- `VIDEO_EXTENSIONS` (file_ops.py lines 455-472). -/
def VIDEO_EXTENSIONS : List String :=
  [".mp4", ".mkv", ".avi", ".mov", ".wmv", ".flv", ".webm", ".m4v",
   ".mpg", ".mpeg", ".3gp", ".ogv", ".rm", ".rmvb", ".asf", ".ts"]

/-- `SUBTITLE_EXTENSIONS` (file_ops.py line 474). -/
def SUBTITLE_EXTENSIONS : List String :=
  [".srt", ".ass", ".ssa", ".vtt", ".sub", ".idx", ".sup"]

/-- `IMAGE_EXTENSIONS` (file_ops.py line 476). -/
def IMAGE_EXTENSIONS : List String :=
  [".jpg", ".jpeg", ".png", ".gif", ".bmp", ".tiff", ".webp"]

/-- `is_video_file` (file_ops.py lines 479-481):
`file_path.suffix.lower() in VIDEO_EXTENSIONS`. -/
def is_video_file (name : String) : Bool :=
  VIDEO_EXTENSIONS.any (fun e => lowerList (pathSuffix name) == e.toList)

/-- `is_subtitle_file` (file_ops.py lines 484-486). -/
def is_subtitle_file (name : String) : Bool :=
  SUBTITLE_EXTENSIONS.any (fun e => lowerList (pathSuffix name) == e.toList)

/-- `is_image_file` (file_ops.py lines 489-491). -/
def is_image_file (name : String) : Bool :=
  IMAGE_EXTENSIONS.any (fun e => lowerList (pathSuffix name) == e.toList)

/-- The §4.1 classification categories. -/
inductive Category where
  | video
  | subtitle
  | image
  | other
deriving DecidableEq

/-- The classification used by `get_directory_stats` (scanner.py lines
417-424): first matching extension set wins. -/
def classify (name : String) : Category :=
  if is_video_file name then .video
  else if is_subtitle_file name then .subtitle
  else if is_image_file name then .image
  else .other

/-- The subset of `Settings` fields (models/config.py) the scanner reads,
with the repository's default values noted at the use sites. -/
structure SettingsM where
  max_concurrent : Nat
  min_file_size_mb : Nat
  max_file_size_gb : Nat
  skip_patterns : List String

/-- The default `Settings` (config.py: `max_concurrent = 10`,
`min_file_size_mb = 10`, `max_file_size_gb = 0`,
`skip_patterns = ['.sample', '.trailer', '.extras']`). -/
def defaultSettings : SettingsM :=
  { max_concurrent := 10
    min_file_size_mb := 10
    max_file_size_gb := 0
    skip_patterns := [".sample", ".trailer", ".extras"] }

/-- `Settings.should_skip_file` (config.py lines 268-271): any
case-insensitive substring match of a pattern against the file name. -/
def should_skip_file (s : SettingsM) (name : String) : Bool :=
  s.skip_patterns.any
    (fun pat => subOf (lowerList pat.toList) (lowerList name.toList))

/-- `Settings.get_file_size_limits` (config.py lines 273-279): bytes;
`max_file_size_gb = 0` means unbounded (`None`). -/
def get_file_size_limits (s : SettingsM) : Nat × Option Nat :=
  (s.min_file_size_mb * 1024 * 1024,
    if 0 < s.max_file_size_gb then
      some (s.max_file_size_gb * 1024 * 1024 * 1024)
    else none)

/-- Outcome of reading the first 2048 bytes of a file and running
`python-magic` on them (scanner.py `_verify_media_file`). -/
inductive SniffOutcome where
  | mime (m : String)
  | sniffFailure
  | emptyHeader
  | readFailure
deriving DecidableEq

/-- The accepted MIME type classes (scanner.py lines 332-338). -/
def media_mimes : List String :=
  ["video/", "audio/", "image/", "application/ogg", "application/x-matroska"]

/-- `MediaFileScanner._verify_media_file` (scanner.py lines 317-370):
empty header or read error ⇒ false; a sniffed MIME type is accepted when it
starts with one of the media classes; a sniffing error falls back to the
video-extension check. -/
def verify_media_file (name : String) : SniffOutcome → Bool
  | .readFailure => false
  | .emptyHeader => false
  | .mime m => media_mimes.any (fun p => p.toList.isPrefixOf m.toList)
  | .sniffFailure => is_video_file name

/-- `MediaFileScanner._is_potential_media_file` (scanner.py lines
309-315). -/
def is_potential_media_file (name : String) : Bool :=
  is_video_file name || is_subtitle_file name || is_image_file name

/-- A discovered file: base name plus what the analysis reads about it. -/
structure FileEntry where
  name : String
  size : Nat
  sniff : SniffOutcome
deriving DecidableEq

/-- `ProcessingStatus` (models/media_file.py lines 203-214). -/
inductive ProcessingStatus where
  | pending
  | scanning
  | completed
  | failed
  | skipped
deriving DecidableEq

/-- The fields of the `MediaFile`/`MediaFileInfo` pair the scanner fills in
(scanner.py lines 287-298). -/
structure MediaFileM where
  file_path : String
  file_size : Nat
  file_extension : List Char
  processing_status : ProcessingStatus
deriving DecidableEq

def toMediaFile (f : FileEntry) : MediaFileM :=
  { file_path := f.name
    file_size := f.size
    file_extension := lowerList (pathSuffix f.name)
    processing_status := .scanning }

/-- `MediaFileScanner._analyze_file` (scanner.py lines 243-307): skip
patterns, extension quick filter, size window, magic verification, in that
order; any failed gate returns `None`. -/
def analyze_file (s : SettingsM) (f : FileEntry) : Option MediaFileM :=
  if should_skip_file s f.name then none
  else if ¬ is_potential_media_file f.name then none
  else
    let limits := get_file_size_limits s
    if f.size < limits.1 then none
    else if hasMaxAndExceeds limits.2 f.size then none
    else if ¬ verify_media_file f.name f.sniff then none
    else some (toMediaFile f)
where
  /-- `if max_size and file_size > max_size` (scanner.py line 273). -/
  hasMaxAndExceeds : Option Nat → Nat → Bool
    | none, _ => false
    | some m, size => m < size

inductive ScanErr where
  | invalidDirectory
  | attributeError
deriving DecidableEq

/-- Attribute lookup on the `Settings` object, as Python resolves
`self.settings.<attr>`: only the fields that exist can be read; any other
name raises `AttributeError`. -/
def settingsGetAttr (s : SettingsM) (attr : String) : Option Nat :=
  if attr = "max_concurrent" then some s.max_concurrent
  else if attr = "min_file_size_mb" then some s.min_file_size_mb
  else if attr = "max_file_size_gb" then some s.max_file_size_gb
  else none

/-- `MediaFileScanner.scan_directory` (scanner.py lines 127-207), per-file
semantics: after validating the root, line 155 evaluates
`max_concurrent or self.settings.max_concurrent_api_calls` — so whenever
the argument is absent (or falsy), the nonexistent attribute
`max_concurrent_api_calls` is read and `AttributeError` propagates.
Otherwise all discovered files are analyzed (concurrently, bounded by the
semaphore) and the successful analyses are yielded; completion order is
scheduler-dependent, so the result is the list in discovery order and
order-insensitive statements are proved about it. -/
def scan_directory (s : SettingsM) (rootOk : Bool) (files : List FileEntry)
    (maxConcurrent : Option Nat) : Except ScanErr (List MediaFileM) :=
  if ¬ rootOk then .error .invalidDirectory
  else
    let effective : Option Nat :=
      match maxConcurrent with
      | some n => if n ≠ 0 then some n
          else settingsGetAttr s "max_concurrent_api_calls"
      | none => settingsGetAttr s "max_concurrent_api_calls"
    match effective with
    | none => .error .attributeError
    | some _ => .ok (files.filterMap (analyze_file s))

/-- The per-file acceptance condition actually implemented by
`_analyze_file`: not skip-matched, AND recognized media extension, AND size
within the window, AND content verification passed. -/
def scanner_accepts (s : SettingsM) (f : FileEntry) : Bool :=
  !(should_skip_file s f.name)
  && is_potential_media_file f.name
  && sizeWithin s f.size
  && verify_media_file f.name f.sniff
where
  sizeWithin (s : SettingsM) (size : Nat) : Bool :=
    let limits := get_file_size_limits s
    decide (limits.1 ≤ size)
      && !(analyze_file.hasMaxAndExceeds limits.2 size)

/-- Modelled from the spec: the claimed per-file acceptance condition of
claim C1 — clause (b) reads "have a recognized media extension OR pass
content sniffing". -/
def claim_accepts (s : SettingsM) (f : FileEntry) : Bool :=
  !(should_skip_file s f.name)
  && (is_potential_media_file f.name || sniff_passes f)
  && scanner_accepts.sizeWithin s f.size
where
  sniff_passes : FileEntry → Bool
    | { sniff := .mime m, .. } =>
        media_mimes.any (fun p => p.toList.isPrefixOf m.toList)
    | _ => false

/-- The three files of the C9 scenario. -/
def movieEntry : FileEntry :=
  ⟨"movie.mkv", 2 * 1024 * 1024, .mime "video/x-matroska"⟩

def sampleEntry : FileEntry :=
  ⟨"movie.sample.mkv", 2 * 1024 * 1024, .mime "video/x-matroska"⟩

def readmeEntry : FileEntry :=
  ⟨"readme.txt", 100, .mime "text/plain"⟩

/-- A 20 MB variant of the movie file (above the default 10 MB minimum). -/
def bigMovieEntry : FileEntry :=
  ⟨"movie.mkv", 20 * 1024 * 1024, .mime "video/x-matroska"⟩

/-- A file whose extension is unrecognized but whose content sniffs as
video: the claim's disjunctive gate accepts it, the code's conjunctive
gate rejects it. -/
def datEntry : FileEntry :=
  ⟨"movie.dat", 20 * 1024 * 1024, .mime "video/x-matroska"⟩

/-! ## Theorems -/

/-! ### Retry theorems (claim C2) -/

theorem retryGo_always_fail (s : RetryStrategyM) (errAt : Nat → Nat)
    (hr : ∀ k, s.retryable (errAt k) = true) :
    ∀ j, j ≤ s.max_attempts →
      retryGo s (fun k => (Except.error (errAt k) : Except Nat Unit)) j =
        (.error ⟨s.max_attempts, errAt s.max_attempts⟩, s.max_attempts - j + 1) := by
  intro j hj
  obtain ⟨n, hk⟩ : ∃ n, s.max_attempts - j = n := ⟨_, rfl⟩
  induction n generalizing j with
  | zero =>
    have hje : j = s.max_attempts := by omega
    subst hje
    rw [retryGo]
    have hsr : should_retry s s.max_attempts (errAt s.max_attempts) = false := by
      unfold should_retry
      simp
    simp [hsr]
  | succ n ih =>
    rw [retryGo]
    have hsr : should_retry s j (errAt j) = true := by
      unfold should_retry
      have : ¬ s.max_attempts ≤ j := by omega
      simp [this, hr j]
    simp only [hsr, dif_pos]
    have hrec := ih (j + 1) (by omega) (by omega)
    simp [hrec]
    omega

/-- C2 counterexample: the claim quantifies over every retry strategy, but a
strategy whose retryable-exception whitelist rejects the raised error (here:
a whitelist accepting nothing, `max_attempts = 1`) makes `retry_async` invoke
the always-failing operation exactly once — not `max_attempts + 1 = 2` times —
and the raised `RetryError` records attempt count 0, not 1. -/
theorem C2_counterexample :
    retry_async ⟨1, fun _ => false⟩ (fun _ => (Except.error 7 : Except Nat Unit)) =
      (.error ⟨0, 7⟩, 1) ∧ (1 : Nat) ≠ 1 + 1 := by
  refine ⟨?_, by omega⟩
  rw [retry_async, retryGo]
  simp [should_retry]

/-- C2 (amended): for every retry strategy with `max_attempts = N` whose
retryable-exception whitelist accepts the raised errors (true of the default
configuration, which retries every `Exception`), and every operation failing
on all invocations, `retry_async` invokes the operation exactly `N + 1` times
and then returns a `RetryError` whose attempt count is `N` and which carries
the error of the last invocation; in particular with `max_attempts = 0` the
operation is invoked exactly once. -/
theorem C2_retry_exhaustion (s : RetryStrategyM) (errAt : Nat → Nat)
    (hr : ∀ k, s.retryable (errAt k) = true) :
    retry_async s (fun k => (Except.error (errAt k) : Except Nat Unit)) =
      (.error ⟨s.max_attempts, errAt s.max_attempts⟩, s.max_attempts + 1) := by
  have h := retryGo_always_fail s errAt hr 0 (Nat.zero_le _)
  simpa [retry_async] using h

/-- Witness for C2: with `max_attempts = 2` and an all-retryable always-failing
operation, there are exactly 3 invocations and the error records 2 attempts. -/
theorem C2_retry_exhaustion_witness :
    retry_async ⟨2, fun _ => true⟩ (fun k => (Except.error k : Except Nat Unit)) =
      (.error ⟨2, 2⟩, 3) :=
  C2_retry_exhaustion ⟨2, fun _ => true⟩ (fun k => k) (fun _ => rfl)

/-! ### Token bucket theorems (claim C3) -/

/-- C3: on each `acquire(n)` the bucket is first refilled to
`min(capacity, tokens + elapsed * refill_rate)`; if that is at least `n` the
call is granted and exactly `n` tokens are deducted, otherwise it is rejected
with `retry_after = (n - tokens) / refill_rate` and the token count is left
unchanged.  Hypotheses: the bucket state is well formed (tokens within
capacity, as produced by the unparametrized constructor), the clock is
monotone, and the refill rate is positive (rate 0 would make the Python
compute a division by zero). -/
theorem C3_token_bucket_acquire (b : TokenBucketRL) (n now : ℚ)
    (htok : b.tokens ≤ b.capacity) (hnow : b.last_refill ≤ now)
    (hrate : 0 < b.refill_rate) :
    ((tbRefill b now).tokens
        = min b.capacity (b.tokens + (now - b.last_refill) * b.refill_rate))
    ∧ (n ≤ (tbRefill b now).tokens →
        tbAcquire b n now =
          (.granted, { tbRefill b now with tokens := (tbRefill b now).tokens - n }))
    ∧ (¬ n ≤ (tbRefill b now).tokens →
        tbAcquire b n now =
          (.rejected ((n - (tbRefill b now).tokens) / b.refill_rate),
            tbRefill b now)) := by
  refine ⟨?_, ?_, ?_⟩
  · unfold tbRefill
    rcases lt_or_ge 0 (now - b.last_refill) with h | h
    · simp [h]
    · have h0 : now - b.last_refill = 0 := le_antisymm (by linarith) (by linarith)
      simp [h0, htok]
  · intro h
    unfold tbAcquire
    simp [h]
  · intro h
    unfold tbAcquire
    have hrr : (tbRefill b now).refill_rate = b.refill_rate := by
      by_cases hc : 0 < now - b.last_refill <;> simp [tbRefill, hc]
    simp [h, hrr]

/-- Witness for C3: capacity 10, rate 2, 1 token left, 2 seconds elapsed:
refill to min(10, 1 + 4) = 5; a request for 3 is granted leaving 2; a request
for 9 is rejected with retry_after (9 - 5) / 2 = 2 and 5 tokens kept. -/
theorem C3_token_bucket_acquire_witness :
    ((tbRefill ⟨10, 2, 1, 0⟩ 2).tokens = min 10 (1 + (2 - 0) * 2))
    ∧ (tbAcquire ⟨10, 2, 1, 0⟩ 3 2).2.tokens = 2
    ∧ (tbAcquire ⟨10, 2, 1, 0⟩ 9 2).1 = .rejected 2
    ∧ (tbAcquire ⟨10, 2, 1, 0⟩ 9 2).2.tokens = 5 := by
  have h := C3_token_bucket_acquire ⟨10, 2, 1, 0⟩ 3 2 (by norm_num) (by norm_num)
    (by norm_num)
  have h9 := C3_token_bucket_acquire ⟨10, 2, 1, 0⟩ 9 2 (by norm_num) (by norm_num)
    (by norm_num)
  have hreF : (tbRefill ⟨10, 2, 1, 0⟩ 2).tokens = 5 := by
    rw [h.1]; norm_num
  refine ⟨by rw [h.1], ?_, ?_, ?_⟩
  · rw [h.2.1 (by rw [hreF]; norm_num)]
    rw [hreF]; norm_num
  · rw [h9.2.2 (by rw [hreF]; norm_num)]
    rw [hreF]; norm_num
  · rw [h9.2.2 (by rw [hreF]; norm_num)]
    exact hreF

/-! ### Adaptive limiter theorems (claim C6) -/

theorem report_success_iter_lt_ten (a : AdaptiveRL)
    (h : a.consecutive_successes = 0) :
    ∀ k, k ≤ 9 →
      report_success_iter a k = { a with consecutive_successes := k } := by
  intro k hk
  induction k with
  | zero => simp [report_success_iter, ← h]
  | succ m ih =>
    have hm := ih (by omega)
    rw [report_success_iter, hm]
    unfold report_success
    have : ¬ 10 ≤ m + 1 := by omega
    simp [this]

/-- C6: starting from a state whose success streak is 0, the first 9
`report_success()` calls leave the rate unchanged; the 10th multiplies it by
the increase factor clamped to `max_rate` and resets the streak to 0; and a
single `report_rate_limited()` call multiplies the rate by the decrease
factor clamped to `min_rate` and resets the streak to 0. -/
theorem C6_adaptive_feedback (a : AdaptiveRL) (h : a.consecutive_successes = 0) :
    (∀ k, k ≤ 9 → (report_success_iter a k).current_rate = a.current_rate)
    ∧ (report_success_iter a 10).current_rate
        = min a.max_rate (a.current_rate * a.increase_factor)
    ∧ (report_success_iter a 10).consecutive_successes = 0
    ∧ (report_rate_limited a).current_rate
        = max a.min_rate (a.current_rate * a.decrease_factor)
    ∧ (report_rate_limited a).consecutive_successes = 0 := by
  have h9 := report_success_iter_lt_ten a h 9 (by omega)
  refine ⟨?_, ?_, ?_, rfl, rfl⟩
  · intro k hk
    rw [report_success_iter_lt_ten a h k hk]
  · show (report_success (report_success_iter a 9)).current_rate = _
    rw [h9]
    unfold report_success
    norm_num
  · show (report_success (report_success_iter a 9)).consecutive_successes = 0
    rw [h9]
    unfold report_success
    norm_num

/-- Witness for C6: default factors (1.1 and 0.5), initial rate 1, bounds
[0.1, 100], streak 0: 9 successes keep rate 1, the 10th raises it to 1.1 with
streak 0, and one rate-limited report halves it to 0.5 with streak 0. -/
theorem C6_adaptive_feedback_witness :
    (report_success_iter (mkAdaptive 1 (1/10) 100 (11/10) (1/2)) 9).current_rate = 1
    ∧ (report_success_iter (mkAdaptive 1 (1/10) 100 (11/10) (1/2)) 10).current_rate
        = 11/10
    ∧ (report_success_iter (mkAdaptive 1 (1/10) 100 (11/10) (1/2)) 10).consecutive_successes = 0
    ∧ (report_rate_limited (mkAdaptive 1 (1/10) 100 (11/10) (1/2))).current_rate = 1/2
    ∧ (report_rate_limited (mkAdaptive 1 (1/10) 100 (11/10) (1/2))).consecutive_successes = 0 := by
  have h := C6_adaptive_feedback (mkAdaptive 1 (1/10) 100 (11/10) (1/2)) rfl
  refine ⟨?_, ?_, h.2.2.1, ?_, h.2.2.2.2⟩
  · rw [h.1 9 (by omega)]
    rfl
  · rw [h.2.1]
    norm_num [mkAdaptive]
  · rw [h.2.2.2.1]
    norm_num [mkAdaptive]

/-! ### Limiter invariant theorems (claim C4) -/

/-- C4 counterexample: the constructors clamp nothing, so the freshly
constructed state already violates the invariants.  A token bucket built
with `capacity = 1, initial_tokens = 2` has 2 > capacity tokens, and an
adaptive limiter built with `initial_rate = 200, max_rate = 100` has a rate
above `max_rate`. -/
theorem C4_counterexample :
    ¬ tbInv (mkTokenBucket 1 1 (some 2) 0)
    ∧ ¬ adInv (mkAdaptive 200 (1/10) 100 (11/10) (1/2)) := by
  constructor
  · intro hinv
    have h2 : (mkTokenBucket 1 1 (some 2) 0).tokens = 2 := rfl
    have hc : (mkTokenBucket 1 1 (some 2) 0).capacity = 1 := rfl
    rw [tbInv, h2, hc] at hinv
    exact absurd hinv.2 (by norm_num)
  · intro hinv
    have h2 : (mkAdaptive 200 (1/10) 100 (11/10) (1/2)).current_rate = 200 := rfl
    have hc : (mkAdaptive 200 (1/10) 100 (11/10) (1/2)).max_rate = 100 := rfl
    rw [adInv, h2, hc] at hinv
    exact absurd hinv.2 (by norm_num)

theorem tbRefill_inv {b : TokenBucketRL} (now : ℚ)
    (hc : tbConfigOk b) (hi : tbInv b) :
    tbConfigOk (tbRefill b now) ∧ tbInv (tbRefill b now) := by
  unfold tbRefill
  by_cases he : 0 < now - b.last_refill
  · simp only [he, if_pos]
    refine ⟨⟨hc.1, hc.2⟩, ?_, ?_⟩
    · have : 0 ≤ (now - b.last_refill) * b.refill_rate :=
        mul_nonneg (by linarith) hc.2
      exact le_min hc.1 (by linarith [hi.1])
    · exact min_le_left _ _
  · simp only [he, if_neg, not_false_iff]
    exact ⟨hc, hi⟩

theorem tbApply_inv {b : TokenBucketRL} {op : TBOp}
    (hc : tbConfigOk b) (hi : tbInv b) (hop : op.nonneg) :
    tbConfigOk (tbApply b op) ∧ tbInv (tbApply b op) := by
  cases op with
  | refill now => exact tbRefill_inv now hc hi
  | reset now =>
    refine ⟨hc, hc.1, le_refl _⟩
  | acquire n now =>
    have hr := tbRefill_inv now hc hi
    unfold tbApply tbAcquire
    by_cases hn : n ≤ (tbRefill b now).tokens
    · simp only [hn, if_pos]
      have hop' : (0 : ℚ) ≤ n := hop
      refine ⟨hr.1, ?_, ?_⟩
      · show 0 ≤ (tbRefill b now).tokens - n
        linarith [hr.2.1, hr.2.2]
      · show (tbRefill b now).tokens - n ≤ (tbRefill b now).capacity
        linarith [hr.2.2]
    · simp only [hn, if_neg, not_false_iff]
      exact hr

theorem adApply_inv {a : AdaptiveRL} (op : AdOp)
    (hmn : 0 ≤ a.min_rate) (hmm : a.min_rate ≤ a.max_rate)
    (hinc : 1 ≤ a.increase_factor)
    (hdec0 : 0 ≤ a.decrease_factor) (hdec1 : a.decrease_factor ≤ 1)
    (hi : adInv a) : adInv (adApply a op) := by
  cases op with
  | acquire now => exact hi
  | success =>
    show adInv (report_success a)
    unfold report_success
    by_cases hten : 10 ≤ a.consecutive_successes + 1
    · simp only [hten, if_pos]
      have hr0 : 0 ≤ a.current_rate := le_trans hmn hi.1
      constructor
      · refine le_min hmm ?_
        calc a.min_rate ≤ a.current_rate := hi.1
          _ = a.current_rate * 1 := (mul_one _).symm
          _ ≤ a.current_rate * a.increase_factor := by
              exact mul_le_mul_of_nonneg_left hinc hr0
      · exact min_le_left _ _
    · simp only [hten, if_neg, not_false_iff]
      exact hi
  | limited =>
    show adInv (report_rate_limited a)
    unfold report_rate_limited
    have hr0 : 0 ≤ a.current_rate := le_trans hmn hi.1
    constructor
    · exact le_max_left _ _
    · refine max_le hmm ?_
      calc a.current_rate * a.decrease_factor
          ≤ a.current_rate * 1 := mul_le_mul_of_nonneg_left hdec1 hr0
        _ = a.current_rate := mul_one _
        _ ≤ a.max_rate := hi.2

theorem tbFoldl_inv (ops : List TBOp) (b : TokenBucketRL)
    (hc : tbConfigOk b) (hi : tbInv b) (hops : ∀ op ∈ ops, op.nonneg) :
    tbInv (ops.foldl tbApply b) := by
  induction ops generalizing b with
  | nil => exact hi
  | cons op rest ih =>
    have hstep := tbApply_inv hc hi (hops op (by simp))
    exact ih (tbApply b op) hstep.1 hstep.2 (fun o ho => hops o (by simp [ho]))

theorem adFoldl_inv (ops : List AdOp) (a : AdaptiveRL)
    (hmn : 0 ≤ a.min_rate) (hmm : a.min_rate ≤ a.max_rate)
    (hinc : 1 ≤ a.increase_factor)
    (hdec0 : 0 ≤ a.decrease_factor) (hdec1 : a.decrease_factor ≤ 1)
    (hi : adInv a) : adInv (ops.foldl adApply a) := by
  induction ops generalizing a with
  | nil => exact hi
  | cons op rest ih =>
    have hcfg : (adApply a op).min_rate = a.min_rate
        ∧ (adApply a op).max_rate = a.max_rate
        ∧ (adApply a op).increase_factor = a.increase_factor
        ∧ (adApply a op).decrease_factor = a.decrease_factor := by
      cases op with
      | acquire now => exact ⟨rfl, rfl, rfl, rfl⟩
      | success =>
        simp only [adApply, report_success]
        by_cases hten : 10 ≤ a.consecutive_successes + 1 <;> simp [hten]
      | limited => exact ⟨rfl, rfl, rfl, rfl⟩
    have hstep := adApply_inv op hmn hmm hinc hdec0 hdec1 hi
    exact ih (adApply a op) (hcfg.1 ▸ hmn) (by rw [hcfg.1, hcfg.2.1]; exact hmm)
      (hcfg.2.2.1 ▸ hinc) (hcfg.2.2.2 ▸ hdec0) (hcfg.2.2.2 ▸ hdec1) hstep

/-- C4 (amended): provided the constructor arguments are themselves in range
(`initial_tokens`, when given, within `[0, capacity]`; nonnegative capacity,
refill rate and request amounts; `initial_rate` within
`[min_rate, max_rate]` with `0 ≤ min_rate ≤ max_rate`; an increase factor
at least 1 and a decrease factor in `[0, 1]`, as in the default
configuration), every state reachable by any sequence of acquire / refill /
reset operations keeps `tokens ∈ [0, capacity]`, and every state reachable
by any sequence of acquire / report_success / report_rate_limited calls
keeps the rate in `[min_rate, max_rate]`, including the fresh states. -/
theorem C4_limiter_invariants (capacity rate t0 : ℚ) (init : Option ℚ)
    (ops : List TBOp)
    (ir mn mx inc dec : ℚ) (aops : List AdOp)
    (hcap : 0 ≤ capacity) (hrate : 0 ≤ rate)
    (hinit : ∀ x, init = some x → 0 ≤ x ∧ x ≤ capacity)
    (hops : ∀ op ∈ ops, op.nonneg)
    (hmn : 0 ≤ mn) (hmm : mn ≤ mx) (hir1 : mn ≤ ir) (hir2 : ir ≤ mx)
    (hinc : 1 ≤ inc) (hdec0 : 0 ≤ dec) (hdec1 : dec ≤ 1) :
    tbInv (ops.foldl tbApply (mkTokenBucket capacity rate init t0))
    ∧ adInv (aops.foldl adApply (mkAdaptive ir mn mx inc dec)) := by
  constructor
  · refine tbFoldl_inv ops _ ⟨hcap, hrate⟩ ?_ hops
    cases init with
    | none => exact ⟨hcap, le_refl _⟩
    | some x => exact (hinit x rfl)
  · exact adFoldl_inv aops _ hmn hmm hinc hdec0 hdec1 ⟨hir1, hir2⟩

/-- Witness for C4 (amended): a bucket with capacity 2, rate 1, default
initial tokens, after an acquire, a refill and a reset stays within
[0, 2]; an adaptive limiter at rate 1 in [0.1, 100] with default factors
stays within bounds after a success, a rate-limited report and an acquire. -/
theorem C4_limiter_invariants_witness :
    tbInv ([TBOp.acquire 1 0, TBOp.refill 1, TBOp.reset 2].foldl tbApply
        (mkTokenBucket 2 1 none 0))
    ∧ adInv ([AdOp.success, AdOp.limited, AdOp.acquire 3].foldl adApply
        (mkAdaptive 1 (1/10) 100 (11/10) (1/2))) :=
  C4_limiter_invariants 2 1 0 none [TBOp.acquire 1 0, TBOp.refill 1, TBOp.reset 2]
    1 (1/10) 100 (11/10) (1/2) [AdOp.success, AdOp.limited, AdOp.acquire 3]
    (by norm_num) (by norm_num) (fun x hx => by cases hx)
    (by
      intro op hop
      fin_cases hop <;> simp [TBOp.nonneg])
    (by norm_num) (by norm_num) (by norm_num) (by norm_num)
    (by norm_num) (by norm_num) (by norm_num)

/-! ### Sliding window theorems (claim C5) -/

theorem cleanup_keeps_fresh (w now t : ℚ) (j : Nat) (hw : ¬ t ≤ now - w) :
    cleanup_old_requests w now (List.replicate j t) = List.replicate j t := by
  cases j with
  | zero => rfl
  | succ m =>
    rw [List.replicate_succ, cleanup_old_requests]
    simp [hw]

theorem cleanup_drops_stale (w now t : ℚ) (j : Nat) (hw : t ≤ now - w) :
    cleanup_old_requests w now (List.replicate j t) = [] := by
  induction j with
  | zero => rfl
  | succ m ih =>
    rw [List.replicate_succ, cleanup_old_requests]
    simp [hw, ih]

theorem cleanup_sorted_filter (w now : ℚ) (l : List ℚ)
    (hs : l.Pairwise (· ≤ ·)) :
    cleanup_old_requests w now l = l.filter (fun ts => decide (now - w < ts)) := by
  induction l with
  | nil => rfl
  | cons t ts ih =>
    rw [List.pairwise_cons] at hs
    rw [cleanup_old_requests]
    by_cases hc : t ≤ now - w
    · have hd : decide (now - w < t) = false := by
        simp only [decide_eq_false_iff_not]
        linarith
      rw [List.filter_cons]
      simp only [hd, if_neg, Bool.false_eq_true, not_false_iff]
      exact if_pos hc ▸ (by simp [hc, ih hs.2])
    · have hd : decide (now - w < t) = true := by
        simp only [decide_eq_true_eq]
        linarith
      rw [List.filter_cons]
      simp only [hd, if_pos]
      have hall : ts.filter (fun x => decide (now - w < x)) = ts := by
        apply List.filter_eq_self.mpr
        intro x hx
        have hxt : t ≤ x := hs.1 x hx
        simp only [decide_eq_true_eq]
        linarith
      simp [hc, ih hs.2, hall]

theorem swBurst_replicate (N : Nat) (w t : ℚ) (hw : 0 < w) :
    ∀ k j, j + k ≤ N →
      swBurst ⟨N, w, List.replicate j t⟩ t k =
        (true, ⟨N, w, List.replicate (j + k) t⟩) := by
  intro k
  induction k with
  | zero => intro j hj; simp [swBurst]
  | succ m ih =>
    intro j hj
    have hfresh : ¬ t ≤ t - w := by linarith
    have hacq : swAcquire ⟨N, w, List.replicate j t⟩ t =
        (.granted, ⟨N, w, List.replicate (j + 1) t⟩) := by
      unfold swAcquire
      simp only [cleanup_keeps_fresh w t t j hfresh, List.length_replicate]
      have hlt : ¬ N ≤ j := by omega
      simp only [hlt, if_neg, not_false_iff]
      rw [List.replicate_succ' j t]
    rw [swBurst, hacq]
    have := ih (j + 1) (by omega)
    simpa [Nat.add_assoc, Nat.add_comm, Nat.add_left_comm] using this

/-- C5: for a sliding window limiter with limit `N ≥ 1` over a window of
`W > 0` seconds: (eviction) on acquire, exactly the timestamps at least a
full window old (`ts ≤ now - W`) are evicted from the front of the
time-ordered sequence; (burst) starting empty, `N` instantaneous acquires
at time `t` all succeed; (reject) the next immediate acquire is rejected
with `retry_after = oldest + W - now = W > 0` and the tracked timestamps
are unchanged; (recover) any acquire at a time `≥ t + W` (i.e. after
sleeping past the window) succeeds. -/
theorem C5_sliding_window (N : Nat) (w t : ℚ) (hN : 1 ≤ N) (hw : 0 < w) :
    (∀ (s : SlidingWindowRL) (now : ℚ), s.requests.Pairwise (· ≤ ·) →
      cleanup_old_requests s.window_seconds now s.requests =
        s.requests.filter (fun ts => decide (now - s.window_seconds < ts)))
    ∧ swBurst ⟨N, w, []⟩ t N = (true, ⟨N, w, List.replicate N t⟩)
    ∧ swAcquire ⟨N, w, List.replicate N t⟩ t =
        (.rejected w, ⟨N, w, List.replicate N t⟩)
    ∧ 0 < w
    ∧ (∀ now, t + w ≤ now →
        (swAcquire ⟨N, w, List.replicate N t⟩ now).1 = .granted) := by
  refine ⟨?_, ?_, ?_, hw, ?_⟩
  · intro s now hs
    exact cleanup_sorted_filter s.window_seconds now s.requests hs
  · have := swBurst_replicate N w t hw N 0 (by omega)
    simpa using this
  · have hfresh : ¬ t ≤ t - w := by linarith
    unfold swAcquire
    simp only [cleanup_keeps_fresh w t t N hfresh, List.length_replicate,
      le_refl, if_pos]
    cases hN' : N with
    | zero => omega
    | succ m =>
      rw [List.replicate_succ]
      simp only
      have : t + w - t = w := by ring
      rw [this]
  · intro now hnow
    have hstale : t ≤ now - w := by linarith
    unfold swAcquire
    simp only [cleanup_drops_stale w now t N hstale, List.length_nil]
    have : ¬ N ≤ 0 := by omega
    simp [this]

/-- Witness for C5: limit 2, window 1, burst at time 0: two acquires
granted, the third rejected with retry_after 1, and an acquire at time 1
granted again; the eviction clause instantiated on the state [0]. -/
theorem C5_sliding_window_witness :
    cleanup_old_requests (1 : ℚ) 2 [0] =
      List.filter (fun ts => decide ((2 : ℚ) - 1 < ts)) [0]
    ∧ swBurst ⟨2, 1, []⟩ 0 2 = (true, ⟨2, 1, List.replicate 2 0⟩)
    ∧ swAcquire ⟨2, 1, List.replicate 2 0⟩ 0 =
        (.rejected 1, ⟨2, 1, List.replicate 2 0⟩)
    ∧ (swAcquire ⟨2, 1, List.replicate 2 0⟩ 1).1 = .granted := by
  have h := C5_sliding_window 2 1 0 (by omega) (by norm_num)
  refine ⟨?_, h.2.1, h.2.2.1, h.2.2.2.2 1 (by norm_num)⟩
  have he := h.1 ⟨2, 1, [0]⟩ 2 (by simp)
  simpa using he

/-! ### Atomic file operation theorems (claims C7, C8, C10) -/

/-- C7 (code bug): with `verify_integrity` on and differing hashes (here a
copy that corrupted the staging bytes, hash = length), the staging file is
deleted and the destination is never created — but the caller does NOT
receive the `FileIntegrityError`: the blanket `except Exception` handler of
`copy_file_atomic` re-wraps it, so a generic `FileOperationError` (with the
integrity error as its cause) propagates instead, contradicting the
function's own docstring and the claim. -/
theorem C7_integrity_wrapped :
    (copy_file_atomic List.length fs0 "src.mkv" "dst.mkv" true
        (.corrupt [1, 2])).1 = some (.operationError (some .integrityError))
    ∧ (copy_file_atomic List.length fs0 "src.mkv" "dst.mkv" true
        (.corrupt [1, 2])).1 ≠ some .integrityError
    ∧ (copy_file_atomic List.length fs0 "src.mkv" "dst.mkv" true
        (.corrupt [1, 2])).2 (tmpPath "dst.mkv") = none
    ∧ (copy_file_atomic List.length fs0 "src.mkv" "dst.mkv" true
        (.corrupt [1, 2])).2 "dst.mkv" = none
    ∧ (copy_file_atomic List.length fs0 "src.mkv" "dst.mkv" true
        (.corrupt [1, 2])).2 "src.mkv" = some [1, 2, 3] := by
  refine ⟨rfl, ?_, ?_, ?_, ?_⟩
  · intro h
    have h1 : some (FileErr.operationError (some .integrityError)) =
        some FileErr.integrityError := h
    exact FileErr.noConfusion (Option.some.inj h1)
  all_goals
    simp [copy_file_atomic, copy_file_atomic.copyVerifyRename, fs0, fsSet,
      tmpPath]

/-- C8: `move(src, dst, create_backup=True)` with `dst` already present
first copies the existing destination content to `dst ++ ".backup"` (the
model's backup copy runs with verification off, mirroring line 245), and
after the move succeeds — via the direct rename or the cross-filesystem
fallback — the backup holds the original `dst` content and `dst` holds the
original `src` content.  The inequality hypotheses say the source path is
not one of the destination-derived paths and that the derived paths do not
collide (true of any ordinary distinct file names). -/
theorem C8_move_with_backup (hash : List Nat → Nat) (fs : FS)
    (src dst : String) (cs cd : List Nat) (renameRaises : Bool)
    (hsrc : fs src = some cs) (hdst : fs dst = some cd)
    (h1 : src ≠ dst)
    (h2 : src ≠ backupPath dst) (h3 : src ≠ tmpPath (backupPath dst))
    (h4 : dst ≠ backupPath dst) (h9 : backupPath dst ≠ tmpPath dst) :
    (move_file_atomic hash fs src dst true true renameRaises .clean .clean).1
        = none
    ∧ (move_file_atomic hash fs src dst true true renameRaises .clean
        .clean).2 (backupPath dst) = some cd
    ∧ (move_file_atomic hash fs src dst true true renameRaises .clean
        .clean).2 dst = some cs := by
  have hcopy1 : copy_file_atomic hash fs dst (backupPath dst) false .clean
      = (none, fsRename (fsSet fs (tmpPath (backupPath dst)) (some cd))
          (tmpPath (backupPath dst)) (backupPath dst)) := by
    unfold copy_file_atomic
    rw [hdst]
    simp [copy_file_atomic.copyVerifyRename]
  set fs1 := fsRename (fsSet fs (tmpPath (backupPath dst)) (some cd))
      (tmpPath (backupPath dst)) (backupPath dst) with hfs1
  have hfs1src : fs1 src = some cs := by
    simp [hfs1, fsRename, fsSet, h2, h3, hsrc]
  have hfs1bp : fs1 (backupPath dst) = some cd := by
    simp [hfs1, fsRename, fsSet]
  have hmain : move_file_atomic hash fs src dst true true renameRaises
      .clean .clean =
      (if renameRaises then
        match copy_file_atomic hash fs1 src dst true .clean with
        | (none, fs2) => ((none : Option FileErr), fsSet fs2 src none)
        | (some e, fs2) => (some e, fs2)
      else (none, fsRename fs1 src dst)) := by
    unfold move_file_atomic
    rw [hsrc, hdst]
    simp [hcopy1]
  cases renameRaises with
  | false =>
    have hres : move_file_atomic hash fs src dst true true false .clean .clean
        = (none, fsRename fs1 src dst) := by
      rw [hmain]; simp
    rw [hres]
    exact ⟨rfl, by simp [fsRename, Ne.symm h4, Ne.symm h2, hfs1bp],
      by simp [fsRename, hfs1src]⟩
  | true =>
    have hcopy2 : copy_file_atomic hash fs1 src dst true .clean
        = (none, fsRename (fsSet fs1 (tmpPath dst) (some cs))
            (tmpPath dst) dst) := by
      unfold copy_file_atomic
      rw [hfs1src]
      simp [copy_file_atomic.copyVerifyRename]
    have hres : move_file_atomic hash fs src dst true true true .clean .clean
        = (none, fsSet (fsRename (fsSet fs1 (tmpPath dst) (some cs))
            (tmpPath dst) dst) src none) := by
      rw [hmain]; simp [hcopy2]
    rw [hres]
    exact ⟨rfl,
      by simp [fsSet, fsRename, Ne.symm h2, Ne.symm h4, h9, hfs1bp],
      by simp [fsSet, fsRename, Ne.symm h1]⟩

/-- Witness for C8: concrete two-byte files `a.mkv` and `b.mkv` on a
filesystem holding both; after `move` with backup, `b.mkv.backup` has the
old destination bytes and `b.mkv` the old source bytes (both rename and
fallback paths). -/
theorem C8_move_with_backup_witness :
    ((move_file_atomic List.length
        (fun p => if p = "a.mkv" then some [7] else
          if p = "b.mkv" then some [8, 9] else none)
        "a.mkv" "b.mkv" true true true .clean .clean).1 = none
      ∧ (move_file_atomic List.length
          (fun p => if p = "a.mkv" then some [7] else
            if p = "b.mkv" then some [8, 9] else none)
          "a.mkv" "b.mkv" true true true .clean .clean).2
            (backupPath "b.mkv") = some [8, 9]
      ∧ (move_file_atomic List.length
          (fun p => if p = "a.mkv" then some [7] else
            if p = "b.mkv" then some [8, 9] else none)
          "a.mkv" "b.mkv" true true true .clean .clean).2 "b.mkv"
          = some [7]) :=
  C8_move_with_backup List.length _ "a.mkv" "b.mkv" [7] [8, 9] true
    rfl rfl (by decide) (by decide) (by decide) (by decide) (by decide)

/-- C10: when the direct rename raises and `move_file_atomic` takes the
cross-filesystem copy-then-delete fallback (destination initially absent):
if the fallback copy completes, the destination holds the source content
and only then is the source deleted; if the copy crashes mid-stream, a
wrapped operation error propagates, the source still exists with unchanged
content, no staging file remains, and the destination was never created;
likewise when verification detects a corrupted copy. -/
theorem C10_fallback_safety (hash : List Nat → Nat) (fs : FS)
    (src dst : String) (cs : List Nat) (create_backup : Bool)
    (hsrc : fs src = some cs) (hdst : fs dst = none)
    (h1 : src ≠ dst) (h7 : src ≠ tmpPath dst) (h8 : dst ≠ tmpPath dst) :
    (move_file_atomic hash fs src dst true create_backup true .clean .clean
        = (none, fsSet (fsRename (fsSet fs (tmpPath dst) (some cs))
            (tmpPath dst) dst) src none)
      ∧ (move_file_atomic hash fs src dst true create_backup true .clean
          .clean).2 dst = some cs
      ∧ (move_file_atomic hash fs src dst true create_backup true .clean
          .clean).2 src = none)
    ∧ (∀ w,
        (move_file_atomic hash fs src dst true create_backup true .clean
            (.crashMid w)).1 = some (.operationError none)
        ∧ (move_file_atomic hash fs src dst true create_backup true .clean
            (.crashMid w)).2 src = some cs
        ∧ (move_file_atomic hash fs src dst true create_backup true .clean
            (.crashMid w)).2 (tmpPath dst) = none
        ∧ (move_file_atomic hash fs src dst true create_backup true .clean
            (.crashMid w)).2 dst = none)
    ∧ (∀ w, hash cs ≠ hash w →
        (move_file_atomic hash fs src dst true create_backup true .clean
            (.corrupt w)).1 = some (.operationError (some .integrityError))
        ∧ (move_file_atomic hash fs src dst true create_backup true .clean
            (.corrupt w)).2 src = some cs
        ∧ (move_file_atomic hash fs src dst true create_backup true .clean
            (.corrupt w)).2 (tmpPath dst) = none
        ∧ (move_file_atomic hash fs src dst true create_backup true .clean
            (.corrupt w)).2 dst = none) := by
  have hnb : (create_backup ∧ (fs dst).isSome) = False := by
    rw [hdst]; simp
  have hmain : ∀ fault, move_file_atomic hash fs src dst true create_backup
      true .clean fault =
      (match copy_file_atomic hash fs src dst true fault with
      | (none, fs2) => ((none : Option FileErr), fsSet fs2 src none)
      | (some e, fs2) => (some e, fs2)) := by
    intro fault
    unfold move_file_atomic
    rw [hsrc]
    simp only [hnb, if_false, if_pos]
  refine ⟨?_, ?_, ?_⟩
  · have hcopy : copy_file_atomic hash fs src dst true .clean
        = (none, fsRename (fsSet fs (tmpPath dst) (some cs))
            (tmpPath dst) dst) := by
      unfold copy_file_atomic
      rw [hsrc]
      simp [copy_file_atomic.copyVerifyRename]
    rw [hmain .clean, hcopy]
    refine ⟨rfl, ?_, ?_⟩
    · simp [fsSet, fsRename, Ne.symm h1]
    · simp [fsSet]
  · intro w
    have hcopy : copy_file_atomic hash fs src dst true (.crashMid w)
        = (some (.operationError none), fsSet fs (tmpPath dst) none) := by
      unfold copy_file_atomic
      rw [hsrc]
    rw [hmain (.crashMid w), hcopy]
    refine ⟨rfl, ?_, ?_, ?_⟩
    · simp [fsSet, h7, hsrc]
    · simp [fsSet]
    · simp [fsSet, h8, hdst]
  · intro w hw
    have hcopy : copy_file_atomic hash fs src dst true (.corrupt w)
        = (some (.operationError (some .integrityError)),
            fsSet (fsSet fs (tmpPath dst) (some w)) (tmpPath dst) none) := by
      unfold copy_file_atomic
      rw [hsrc]
      simp [copy_file_atomic.copyVerifyRename, hw]
    rw [hmain (.corrupt w), hcopy]
    refine ⟨rfl, ?_, ?_, ?_⟩
    · simp [fsSet, h7, hsrc]
    · simp [fsSet]
    · simp [fsSet, h8, hdst]

/-- Witness for C10: source `a.mkv` = [5], destination `c.mkv` absent,
rename raising: the clean fallback moves the content and deletes the
source; the crashing fallback leaves the source in place with no staging
or destination file. -/
theorem C10_fallback_safety_witness :
    ((move_file_atomic List.length
        (fun p => if p = "a.mkv" then some [5] else none)
        "a.mkv" "c.mkv" true false true .clean .clean).2 "c.mkv" = some [5])
    ∧ ((move_file_atomic List.length
        (fun p => if p = "a.mkv" then some [5] else none)
        "a.mkv" "c.mkv" true false true .clean .clean).2 "a.mkv" = none)
    ∧ ((move_file_atomic List.length
        (fun p => if p = "a.mkv" then some [5] else none)
        "a.mkv" "c.mkv" true false true .clean (.crashMid [5])).2 "a.mkv"
        = some [5])
    ∧ ((move_file_atomic List.length
        (fun p => if p = "a.mkv" then some [5] else none)
        "a.mkv" "c.mkv" true false true .clean (.crashMid [5])).2
          (tmpPath "c.mkv") = none) := by
  have h := C10_fallback_safety List.length
    (fun p => if p = "a.mkv" then some [5] else none)
    "a.mkv" "c.mkv" [5] false rfl rfl (by decide) (by decide) (by decide)
  exact ⟨h.1.2.1, h.1.2.2, (h.2.1 [5]).2.1, (h.2.1 [5]).2.2.1⟩

/-! ### Classifier and scanner theorems (claims C1, C9) -/

theorem analyze_file_eq (s : SettingsM) (f : FileEntry) :
    analyze_file s f =
      if scanner_accepts s f then some (toMediaFile f) else none := by
  unfold analyze_file scanner_accepts scanner_accepts.sizeWithin
  by_cases h1 : should_skip_file s f.name
  · simp [h1]
  by_cases h2 : is_potential_media_file f.name
  case neg => simp [h1, h2]
  by_cases h3 : f.size < (get_file_size_limits s).1
  · have h3' : ¬ ((get_file_size_limits s).1 ≤ f.size) := by omega
    simp [h1, h2, h3, h3']
  have h3' : (get_file_size_limits s).1 ≤ f.size := by omega
  by_cases h4 : analyze_file.hasMaxAndExceeds (get_file_size_limits s).2 f.size
      = true
  · simp [h1, h2, h3, h3', h4]
  by_cases h5 : verify_media_file f.name f.sniff
  · simp [h1, h2, h3, h3', h4, h5]
  · simp [h1, h2, h3, h3', h4, h5]

/-- C1 counterexample: `movie.dat` (20 MB, valid matroska magic, no skip
match) satisfies the claim's acceptance condition — clause (b) holds via
content sniffing — yet `_analyze_file` rejects it, because the code demands
a recognized media extension AND content verification: the scanned set is
not the claimed set. -/
theorem C1_counterexample :
    claim_accepts defaultSettings datEntry = true
    ∧ analyze_file defaultSettings datEntry = none
    ∧ scan_directory defaultSettings true [datEntry] (some 10) = .ok [] := by
  refine ⟨by decide, by rfl, by rfl⟩

/-- C1 (amended): for every settings configuration, a scan (invoked with an
explicit nonzero concurrency bound; see C9 for the default-call crash)
yields exactly the files that are (a) not skip-matched, (b) bear a
recognized media extension AND pass content verification (media MIME
sniffed, or sniffing error with the video-extension fallback), and (c) have
size within the configured window — and membership is independent of the
traversal order. -/
theorem C1_scan_membership (s : SettingsM) (f : FileEntry)
    (l l' : List FileEntry) (m : MediaFileM) (k : Nat)
    (hp : l.Perm l') (hk : k ≠ 0) :
    (analyze_file s f
        = if scanner_accepts s f then some (toMediaFile f) else none)
    ∧ scan_directory s true l (some k) = .ok (l.filterMap (analyze_file s))
    ∧ (l.filterMap (analyze_file s)).Perm (l'.filterMap (analyze_file s))
    ∧ (m ∈ l.filterMap (analyze_file s) ↔
        ∃ g ∈ l, scanner_accepts s g = true ∧ m = toMediaFile g) := by
  refine ⟨analyze_file_eq s f, ?_, hp.filterMap _, ?_⟩
  · unfold scan_directory
    simp [hk]
  · rw [List.mem_filterMap]
    constructor
    · rintro ⟨g, hg, hsome⟩
      rw [analyze_file_eq] at hsome
      by_cases ha : scanner_accepts s g
      · rw [if_pos ha] at hsome
        exact ⟨g, hg, ha, (Option.some.inj hsome).symm⟩
      · rw [if_neg ha] at hsome
        exact absurd hsome (by simp)
    · rintro ⟨g, hg, ha, hm⟩
      refine ⟨g, hg, ?_⟩
      rw [analyze_file_eq, if_pos ha, hm]

/-- Witness for C1 (amended): the 20 MB `movie.mkv` on a one-file tree is
accepted, the scan returns it, and the membership characterization holds. -/
theorem C1_scan_membership_witness :
    (analyze_file defaultSettings bigMovieEntry
        = if scanner_accepts defaultSettings bigMovieEntry then
            some (toMediaFile bigMovieEntry) else none)
    ∧ scan_directory defaultSettings true [bigMovieEntry] (some 10)
        = .ok ([bigMovieEntry].filterMap (analyze_file defaultSettings))
    ∧ (toMediaFile bigMovieEntry
          ∈ [bigMovieEntry].filterMap (analyze_file defaultSettings) ↔
        ∃ g ∈ [bigMovieEntry], scanner_accepts defaultSettings g = true
          ∧ toMediaFile bigMovieEntry = toMediaFile g) :=
  have h := C1_scan_membership defaultSettings bigMovieEntry [bigMovieEntry]
    [bigMovieEntry] (toMediaFile bigMovieEntry) 10 (List.Perm.refl _)
    (by decide)
  ⟨h.1, h.2.1, h.2.2.2⟩

/-- C9 (code bug): on the scenario directory — `movie.mkv` (2 MB, valid
video magic), `movie.sample.mkv` (skip match), `readme.txt` (non-media) —
the call `scan_directory(root, recursive=True)` under default settings does
not yield one result: line 155 reads the nonexistent settings attribute
`max_concurrent_api_calls` (the field is `max_concurrent`), so
`AttributeError` propagates; and even with an explicit concurrency bound
the scan yields nothing, because 2 MB is below the default
`min_file_size_mb = 10`, although `movie.mkv` does classify as video and a
≥ 10 MB variant is the scan's unique yield. -/
theorem C9_scan_scenario_bug :
    settingsGetAttr defaultSettings "max_concurrent_api_calls" = none
    ∧ scan_directory defaultSettings true [movieEntry, sampleEntry, readmeEntry]
        none = .error .attributeError
    ∧ scan_directory defaultSettings true [movieEntry, sampleEntry, readmeEntry]
        (some 10) = .ok []
    ∧ classify "movie.mkv" = .video
    ∧ scan_directory defaultSettings true [bigMovieEntry, sampleEntry, readmeEntry]
        (some 10) = .ok [toMediaFile bigMovieEntry] :=
  ⟨rfl, rfl, rfl, rfl, rfl⟩

end SMO
